import Mathlib

/-!
Verification development for the sqlrunner service
(schema materialization, runner/result caches, value canonicalization,
error classification), shallowly embedding the Go sources:
`lib/scanner.go`, `lib/sqlrunner.go`, `main.go` and the sibling
revisions of the same files.
-/

set_option autoImplicit false

/- ## Value model and the two revisions of StringScanner.Scan -/

/-- Calendar timestamp as produced by the database driver for
datetime columns (`time.Time` restricted to the observable fields;
values are taken to be in UTC, as the driver parses them). -/
structure GoTime where
  year : Nat
  month : Nat
  day : Nat
  hour : Nat
  minute : Nat
  second : Nat
  nanos : Nat
deriving DecidableEq, Repr

/-- Left-pad the decimal rendering of `n` with zeros up to `width`. -/
def padZeros (width : Nat) (n : Nat) : String :=
  String.mk (List.replicate (width - (toString n).length) '0') ++ toString n

/-- Go `v.Format("2006-01-02 15:04:05")`: zero-padded date and time,
no timezone, no sub-second component. -/
def formatDateTime (t : GoTime) : String :=
  padZeros 4 t.year ++ "-" ++ padZeros 2 t.month ++ "-" ++ padZeros 2 t.day ++ " " ++
    padZeros 2 t.hour ++ ":" ++ padZeros 2 t.minute ++ ":" ++ padZeros 2 t.second

/-- Fractional-second suffix of Go's `time.Time.String()`: empty when
the nanosecond field is zero, otherwise a dot followed by nine
zero-padded digits with trailing zeros trimmed. -/
def nanoSuffix (n : Nat) : String :=
  if n = 0 then ""
  else "." ++ String.mk (((padZeros 9 n).data.reverse.dropWhile (fun c => c = '0')).reverse)

/-- Go `fmt.Sprintf("%v", t)` for a UTC `time.Time`
(`time.Time.String()`, format `2006-01-02 15:04:05.999999999 -0700 MST`). -/
def sprintfTime (t : GoTime) : String :=
  formatDateTime t ++ nanoSuffix t.nanos ++ " +0000 UTC"

/-- Lowercase hexadecimal digit for `n < 16`. -/
def hexDigit (n : Nat) : Char :=
  if n < 10 then Char.ofNat ('0'.toNat + n) else Char.ofNat ('a'.toNat + (n - 10))

/-- Go `hex.EncodeToString`: two lowercase hex digits per byte, no separators. -/
def hexEncodeBytes (bs : List Nat) : String :=
  String.mk (bs.foldr (fun b acc => hexDigit (b / 16 % 16) :: hexDigit (b % 16) :: acc) [])

/-- Go `fmt.Sprintf("%v", bs)` for a `[]byte`: bracketed space-separated
decimal bytes, e.g. `[104 101 108 108 111]`. -/
def sprintfBytes (bs : List Nat) : String :=
  "[" ++ String.intercalate " " (bs.map toString) ++ "]"

/-- The dynamic column value (`driver.Value` / `any`) handed to
`StringScanner.Scan` by the database driver.  The `float` constructor
carries the two Go renderings of the underlying IEEE-754 `float64`
(`strconv.FormatFloat(v, 'f', -1, 64)`, the shortest fixed-point
round-tripping form, and the `fmt` default `%v`/`%g` form), since this
development does not re-derive binary floating-point formatting; the
`other` constructor likewise carries the `%v` rendering of a value
outside the switched types. -/
inductive GoValue where
  | int (i : Int)
  | float (shortestFixed : String) (defaultFmt : String)
  | boolean (b : Bool)
  | bytes (bs : List Nat)
  | str (s : String)
  | time (t : GoTime)
  | null
  | other (rendering : String)
deriving DecidableEq, Repr

/-- Embedding of `StringScanner.Scan` from `src/lib/scanner.go`: the stored value is
`fmt.Sprintf("%v", value)` for every incoming value, rendered per Go's
`fmt` default verb on each dynamic type. -/
def StringScanner.Scan (v : GoValue) : String :=
  match v with
  | .int i => toString i
  | .float _ g => g
  | .boolean b => if b then "true" else "false"
  | .bytes bs => sprintfBytes bs
  | .str s => s
  | .time t => sprintfTime t
  | .null => "<nil>"
  | .other r => r

/-- Embedding of `StringScanner.Scan` from the revision `src/unnamed/part_003`: an
explicit type switch implementing the documented encoding policy
(`strconv.FormatInt`, `strconv.FormatFloat(v, 'f', -1, 64)`, `"1"`/`"0"`
booleans, `hex.EncodeToString`, pass-through text,
`Format("2006-01-02 15:04:05")`, `"NULL"` for nil, `%v` fallback). -/
def StringScannerTyped.Scan (v : GoValue) : String :=
  match v with
  | .int i => toString i
  | .float f _ => f
  | .boolean b => if b then "1" else "0"
  | .bytes bs => hexEncodeBytes bs
  | .str s => s
  | .time t => formatDateTime t
  | .null => "NULL"
  | .other r => r

/- ## Error values and classification -/

/-- Go error values observable in this codebase: a leaf error from an
external call (`bare`), a `fmt.Errorf("...: %w", parent)` wrapper
(`wrap`, which `errors.As` unwraps through), and the three classified
types `SchemaError`, `QueryError` (each holding a `Parent` and defining
no `Unwrap`, so `errors.As` does not look inside them) and
`BadPayloadError`. -/
inductive GoError where
  | bare (msg : String)
  | wrap (msg : String) (parent : GoError)
  | schemaErr (parent : GoError)
  | queryErr (parent : GoError)
  | badPayloadErr (msg : String)
deriving DecidableEq, Repr

/-- Model of `errors.As(err, &SchemaError{})`: true iff some error on the
`Unwrap` chain is a `SchemaError`.  Only `fmt.Errorf` wrappers unwrap;
the classified error structs themselves do not. -/
def containsSchemaError : GoError → Bool
  | .schemaErr _ => true
  | .wrap _ p => containsSchemaError p
  | _ => false

/-- Model of `errors.As(err, &QueryError{})`. -/
def containsQueryError : GoError → Bool
  | .queryErr _ => true
  | .wrap _ p => containsQueryError p
  | _ => false

/-- Model of `errors.As(err, &BadPayloadError{})`. -/
def containsBadPayloadError : GoError → Bool
  | .badPayloadErr _ => true
  | .wrap _ p => containsBadPayloadError p
  | _ => false

/-- The `code` field computed by `NewFailedResponse` in `src/main.go`:
`errors.As` checks in order BadPayload, Schema, Query, with
`INTERNAL_ERROR` as the default; no message parsing. -/
def NewFailedResponse.code (e : GoError) : String :=
  if containsBadPayloadError e then "BAD_PAYLOAD"
  else if containsSchemaError e then "SCHEMA_ERROR"
  else if containsQueryError e then "QUERY_ERROR"
  else "INTERNAL_ERROR"

/- ## SchemaMaterializer: initialize and the artifact filesystem -/

/-- The on-disk state for one schema address: whether the final
artifact `<hash>.db` exists and whether the temporary artifact
`<hash>.db.tmp` exists. -/
structure SchemaFS where
  finalExists : Bool
  tmpExists : Bool
deriving DecidableEq, Repr

/-- Outcomes of the external effects `initialize` performs, as failure
messages: `sql.Open` on the temporary path, the `PRAGMA foreign_keys`
statement, executing the schema text, and `os.Rename` to the final
path.  `none` means the step succeeds. -/
structure BuildEnv where
  openErr : Option String
  pragmaErr : Option String
  execErr : Option String
  renameErr : Option String
deriving DecidableEq, Repr

/-- Final artifact path for a schema.  The sha1 hex digest of the
schema text is abstracted by the schema text itself (an injective
stand-in for a collision-free content address). -/
def schemaFilename (schema : String) : String :=
  "/tmp/sqlrunner/" ++ schema ++ ".db"

/-- Embedding of `initialize` from `src/lib/sqlrunner.go`: fast path when the final
artifact exists; otherwise build into the temporary path (the deferred
cleanup closes the handle and removes the temporary file on every exit
taken after the open), report schema-execution failure as
`SchemaError`, other step failures as wrapped plain errors, and on full
success atomically rename the temporary artifact to the final path.
The returned state is the on-disk state after the deferred cleanup. -/
def materializeSchema (env : BuildEnv) (schema : String) (fs : SchemaFS) :
    Except GoError String × SchemaFS :=
  if fs.finalExists then (.ok (schemaFilename schema), fs)
  else
    match env.openErr with
    | some msg => (.error (.wrap "open sqlite" (.bare msg)), fs)
    | none =>
      match env.pragmaErr with
      | some msg =>
          (.error (.wrap "enable foreign keys" (.bare msg)),
            { finalExists := false, tmpExists := false })
      | none =>
        match env.execErr with
        | some msg =>
            (.error (.schemaErr (.bare msg)),
              { finalExists := false, tmpExists := false })
        | none =>
          match env.renameErr with
          | some msg =>
              (.error (.wrap "persistent schema" (.bare msg)),
                { finalExists := false, tmpExists := false })
          | none => (.ok (schemaFilename schema), { finalExists := true, tmpExists := false })

/-- The error transformation in `SQLRunner.getSqliteInstance`
(`src/lib/sqlrunner.go`): a failure of `initializeThreadSafe` that is
already a `SchemaError` passes through, any other failure is wrapped
into a new `SchemaError`. -/
def getSqliteInstanceClassify (e : GoError) : GoError :=
  if containsSchemaError e then e else .schemaErr e

/-- The error `SQLRunner.Query` returns when `getSqliteInstance`
fails: `fmt.Errorf("get schema: %w", err)`. -/
def querySchemaFailure (e : GoError) : GoError :=
  .wrap "get schema" (getSqliteInstanceClassify e)

/-- Model of `NewQueryError` applied to an engine execution failure. -/
def NewQueryError (msg : String) : GoError := .queryErr (.bare msg)

/-- The unclassified error `SQLRunner.Query` returns when reading the
column list fails: `fmt.Errorf("get columns: %w", err)`. -/
def columnsFailure (msg : String) : GoError := .wrap "get columns" (.bare msg)

/- ## Bounded LRU cache (hashicorp/golang-lru, as used for the result cache) -/

/-- First value bound to key `k` in an association list (Go map /
`sync.Map` lookup; also the entry lookup inside the LRU). -/
def assocLookup {V : Type} (k : String) : List (String × V) → Option V
  | [] => none
  | e :: es => if e.1 = k then some e.2 else assocLookup k es

/-- Remove the first entry bound to key `k`, if any. -/
def assocErase {V : Type} (k : String) : List (String × V) → List (String × V)
  | [] => []
  | e :: es => if e.1 = k then es else e :: assocErase k es

/-- Modelled from the spec: the bounded LRU cache provided by the
external library `hashicorp/golang-lru/v2` (the repository only calls
it; §3 CacheEntry invariant and §4.4/§4.5 describe its contract).
`entries` is kept most-recently-used first; `cap` is the configured
capacity. -/
structure LRUCache (V : Type) where
  cap : Nat
  entries : List (String × V)
deriving DecidableEq, Repr

/-- Modelled from the spec: `lru.Cache.Get` — returns the value bound
to `k` and, on a hit, refreshes the key's recency (moves it to the
front); a miss leaves the cache unchanged. -/
def LRUCache.get {V : Type} (c : LRUCache V) (k : String) : Option V × LRUCache V :=
  match assocLookup k c.entries with
  | some v => (some v, ⟨c.cap, (k, v) :: assocErase k c.entries⟩)
  | none => (none, c)

/-- Modelled from the spec: `lru.Cache.Add` — binds `k` to `v` as the
most recent entry (replacing any previous binding of `k`) and, if the
cache then exceeds its capacity, evicts the least-recently-used
entry. -/
def LRUCache.add {V : Type} (c : LRUCache V) (k : String) (v : V) : LRUCache V :=
  let l := (k, v) :: assocErase k c.entries
  if c.cap < l.length then ⟨c.cap, l.dropLast⟩ else ⟨c.cap, l⟩

/-- One cache operation, for stating invariants over whole histories. -/
inductive CacheOp (V : Type) where
  | get (k : String)
  | add (k : String) (v : V)

/-- Apply one operation, keeping only the resulting cache state. -/
def LRUCache.applyOp {V : Type} (c : LRUCache V) : CacheOp V → LRUCache V
  | .get k => (c.get k).2
  | .add k v => c.add k v

/-- Apply a history of operations in order. -/
def LRUCache.applyOps {V : Type} (c : LRUCache V) (ops : List (CacheOp V)) : LRUCache V :=
  ops.foldl LRUCache.applyOp c

/- ## Runner: query execution over the result cache -/

/-- Embedding of `QueryResult` from the sqlrunner package: ordered column names and
rows of text cells. -/
structure QueryResult where
  columns : List String
  rows : List (List String)
deriving DecidableEq, Repr

/-- The result cache a fresh Runner starts with:
`lru.New[string, *QueryResult](100)` in `NewSQLRunner`
(`src/lib/sqlrunner.go`). -/
def newSQLRunnerCache : LRUCache QueryResult := ⟨100, []⟩

/-- Embedding of `SQLRunner.Query` from `src/lib/sqlrunner.go`, for one fixed
Runner.  `engine` abstracts the read-only SQLite execution of a query
against the Runner's immutable materialized database — opening the
handle, `QueryContext` (whose failures `NewQueryError` classifies),
walking the cursor and encoding every cell through `StringScanner` —
as a function of the query text alone, which is faithful because the
artifact is immutable and the registered scalar functions are
deterministic.  The code checks the result cache first, returns a hit
unchanged, and stores a freshly computed result in the cache; a failed
execution returns the error with the cache untouched. -/
def SQLRunner.Query (engine : String → Except GoError QueryResult)
    (cache : LRUCache QueryResult) (query : String) :
    Except GoError QueryResult × LRUCache QueryResult :=
  match LRUCache.get cache query with
  | (some result, c1) => (.ok result, c1)
  | (none, c1) =>
      match engine query with
      | .error e => (.error e, c1)
      | .ok result => (.ok result, LRUCache.add c1 query result)

/-- The soundness invariant of a Runner's result cache: every stored
entry is the engine's result for its query text. -/
def EntriesConsistent (engine : String → Except GoError QueryResult)
    (c : LRUCache QueryResult) : Prop :=
  ∀ p ∈ c.entries, engine p.1 = Except.ok p.2

/- ## QueryService runner lookup: the sync.Map revision -/

/-- The service state of the `sync.Map` revision
(`src/unnamed/part_000`): `runners` maps schema text to its live
Runner (Runners are represented by their construction number),
`nextRunnerId` numbers Runner constructions, and `newRunnerCalls`
counts invocations of `NewSQLRunner`. -/
structure RunnerMap where
  runners : List (String × Nat)
  nextRunnerId : Nat
  newRunnerCalls : Nat
deriving DecidableEq, Repr

/-- Embedding of `SqlQueryService.findRunner` from `src/unnamed/part_000`: return
the Runner already stored for this schema text if any; otherwise (all
concurrent misses for the same text collapsed by singleflight into
this one execution) construct a new Runner via `NewSQLRunner` — which
succeeds iff the schema is valid, abstracted by `valid` — and store
it.  Nothing is ever evicted. -/
def SqlQueryService.findRunner (valid : String → Bool) (s : RunnerMap)
    (schema : String) : Option Nat × RunnerMap :=
  match assocLookup schema s.runners with
  | some runner => (some runner, s)
  | none =>
      if valid schema then
        (some s.nextRunnerId,
          { runners := (schema, s.nextRunnerId) :: s.runners,
            nextRunnerId := s.nextRunnerId + 1,
            newRunnerCalls := s.newRunnerCalls + 1 })
      else (none, { s with newRunnerCalls := s.newRunnerCalls + 1 })

/-- Fold `findRunner` (all schemas valid) over a list of requests. -/
def resolveAll (s : RunnerMap) (schemas : List String) : RunnerMap :=
  schemas.foldl (fun st sch => (SqlQueryService.findRunner (fun _ => true) st sch).2) s

/-- The empty service state at process start. -/
def emptyRunnerMap : RunnerMap := ⟨[], 0, 0⟩

/-- Twenty-one pairwise distinct schema texts. -/
def twentyOneSchemas : List String :=
  (List.range 21).map (fun i => "CREATE TABLE t" ++ toString i ++ "(x int)")

/- ## Concurrent resolution: singleflight over NewSQLRunner and the build -/

/-- Modelled from the spec: `golang.org/x/sync/singleflight.Group.Do`,
the external do-once primitive (§9: "a shared do once, fan out result
to all waiters primitive") — the `n` concurrent callers of one flight
for the same key share a single execution of the function, and every
caller receives that one result. -/
def singleflightDo {σ α : Type} (n : Nat) (fn : σ → α × σ) (s : σ) : List α × σ :=
  (List.replicate n (fn s).1, (fn s).2)

/-- Process-wide state threaded through a resolution: the on-disk
artifact state for the requested schema, plus instrumentation —
`materializeRuns` counts executions of `initialize`, `buildCount`
counts executions that actually entered the build path (no final
artifact yet), `runnerCount` counts completed Runner constructions,
and `nextRunnerId` numbers them. -/
structure MatState where
  fs : SchemaFS
  materializeRuns : Nat
  buildCount : Nat
  runnerCount : Nat
  nextRunnerId : Nat
deriving DecidableEq, Repr

/-- Instrumented run of `initialize` (here `materializeSchema`). -/
def materializeCounting (env : BuildEnv) (schema : String) (st : MatState) :
    Except GoError String × MatState :=
  (( materializeSchema env schema st.fs).1,
    { st with
      fs := (materializeSchema env schema st.fs).2,
      materializeRuns := st.materializeRuns + 1,
      buildCount := st.buildCount + (if st.fs.finalExists then 0 else 1) })

/-- Embedding of `NewSQLRunner` from `src/lib/sqlrunner.go`: creating the result
cache cannot fail; `getSqliteInstance` runs
`initializeThreadSafe` — `sf.Do(schema, initialize)`, in which this
caller is alone in its flight because the service-level singleflight
already collapsed duplicate callers — classifies its failure
(pass-through if already a `SchemaError`, otherwise wrap into one),
and `NewSQLRunner` wraps any failure as
`fmt.Errorf("initialize sqlite: %w", err)`.  On success a new Runner
is constructed. -/
def NewSQLRunner (env : BuildEnv) (schema : String) (st : MatState) :
    Except GoError Nat × MatState :=
  match materializeCounting env schema st with
  | (.error e, st1) =>
      (.error (.wrap "initialize sqlite" (getSqliteInstanceClassify e)), st1)
  | (.ok _, st1) =>
      (.ok st1.nextRunnerId,
        { st1 with runnerCount := st1.runnerCount + 1, nextRunnerId := st1.nextRunnerId + 1 })

/-- Embedding of `SqlQueryService.findRunner` from `src/main.go` (the revision with
no runner retention), for `n` concurrent callers requesting the same
schema text: `s.sfgroup.Do(schema, ...)` collapses them into one
`NewSQLRunner` execution whose outcome — the Runner, or the error
wrapped as `fmt.Errorf("create SQLRunner: %w", err)` — is fanned out
to every caller. -/
def SqlQueryService.findRunnerFlight (env : BuildEnv) (schema : String) (n : Nat)
    (st : MatState) : List (Except GoError Nat) × MatState :=
  singleflightDo n
    (fun st0 =>
      match NewSQLRunner env schema st0 with
      | (.error e, st1) => (.error (.wrap "create SQLRunner" e), st1)
      | (.ok runner, st1) => (.ok runner, st1))
    st

/-- Two sequential (non-overlapping) resolutions of the same schema in
the `src/main.go` revision: each request is its own singleflight
flight. -/
def findRunnerTwiceSequential (env : BuildEnv) (schema : String) (st : MatState) :
    (List (Except GoError Nat) × List (Except GoError Nat)) × MatState :=
  (((SqlQueryService.findRunnerFlight env schema 1 st).1,
    (SqlQueryService.findRunnerFlight env schema 1
      (SqlQueryService.findRunnerFlight env schema 1 st).2).1),
   (SqlQueryService.findRunnerFlight env schema 1
     (SqlQueryService.findRunnerFlight env schema 1 st).2).2)

/- ## LEFT scalar function -/

/-- The `LEFT` `FunctionImpl` registered in the package `init` of
`src/lib/sqlrunner.go`: the first argument must be text and the second
an integer (otherwise the function fails with an argument-type error),
a negative length is an error, a length exceeding `len(str)` returns
the string unchanged, and otherwise the prefix `str[:length]` is
returned.  Go slices the byte sequence; the characters of the Lean
string stand for those bytes. -/
def leftFunction (arg0 arg1 : GoValue) : Except String GoValue :=
  match arg0 with
  | .str s =>
      match arg1 with
      | .int length =>
          if length < 0 then .error ("negative length: " ++ toString length)
          else if (s.data.length : Int) < length then .ok (.str s)
          else .ok (.str (String.mk (s.data.take length.toNat)))
      | _ => .error "invalid argument type"
  | _ => .error "invalid argument type"

/- ## Claim C1: value-to-text encoding -/

/-- Claim C1: the column value encoding is claimed to follow the fixed
policy (booleans as "1"/"0", nil as "NULL", blobs as lowercase hex, …).
The shipped `StringScanner.Scan` (`src/lib/scanner.go`) instead renders
every value with `fmt.Sprintf("%v", ...)`, producing `true`, `<nil>`
and a bracketed decimal byte list — contradicting the policy, the
package's own `scanner_test.go`, and the sibling revision
`src/unnamed/part_003`, which implements the policy. -/
theorem C1_scanner_code_bug :
    StringScanner.Scan (GoValue.boolean true) = "true" ∧
    StringScanner.Scan GoValue.null = "<nil>" ∧
    StringScanner.Scan (GoValue.bytes [104, 101, 108, 108, 111]) = "[104 101 108 108 111]" ∧
    StringScannerTyped.Scan (GoValue.boolean true) = "1" ∧
    StringScannerTyped.Scan GoValue.null = "NULL" ∧
    StringScannerTyped.Scan (GoValue.bytes [104, 101, 108, 108, 111]) = "68656c6c6f" ∧
    ("true" : String) ≠ "1" :=
  ⟨rfl, rfl, rfl, rfl, rfl, rfl, by decide⟩

/- ## Claim C3: error classification -/

/-- Helper: once a failure passes through `getSqliteInstance`'s
classification, the orchestrator answers `SCHEMA_ERROR`, provided no
`BadPayloadError` hides in the chain. -/
theorem schemaFailureCode (e : GoError) (hb : containsBadPayloadError e = false) :
    NewFailedResponse.code (querySchemaFailure e) = "SCHEMA_ERROR" := by
  unfold NewFailedResponse.code querySchemaFailure getSqliteInstanceClassify
  by_cases hs : containsSchemaError e = true
  · rw [if_pos hs]
    simp [containsBadPayloadError, containsSchemaError, hb, hs]
  · rw [if_neg hs]
    simp [containsBadPayloadError, containsSchemaError, hb]

/-- Claim C3 counterexample: a filesystem fault — `os.Rename` failing
while promoting the artifact — is claimed to surface as
`INTERNAL_ERROR`, but `getSqliteInstance` wraps every
non-`SchemaError` materialization failure into a `SchemaError`, so the
orchestrator answers `SCHEMA_ERROR` for it. -/
theorem C3_counterexample :
    (materializeSchema ⟨none, none, none, some "disk full"⟩ "CREATE TABLE t(x)"
        ⟨false, false⟩).1
      = .error (.wrap "persistent schema" (.bare "disk full")) ∧
    NewFailedResponse.code
        (querySchemaFailure (.wrap "persistent schema" (.bare "disk full")))
      = "SCHEMA_ERROR" ∧
    ("SCHEMA_ERROR" : String) ≠ "INTERNAL_ERROR" :=
  ⟨rfl, rfl, by decide⟩

/-- Claim C3 (amended): every materialization failure the Runner
surfaces — including filesystem faults such as a failed open or
rename — is classified `SchemaError` and the orchestrator answers
`SCHEMA_ERROR`; engine execution failures are classified by
`NewQueryError` and answered `QUERY_ERROR`; failures while reading the
column list are returned unclassified and fall to the orchestrator's
`INTERNAL_ERROR` default; the code is derived purely by `errors.As`
over the wrapped chain, never from the message text. -/
theorem C3_amended_classification (env : BuildEnv) (schema : String) (fs : SchemaFS)
    (e : GoError) (h : (materializeSchema env schema fs).1 = .error e) :
    NewFailedResponse.code (querySchemaFailure e) = "SCHEMA_ERROR"
  ∧ (∀ msg, NewFailedResponse.code (NewQueryError msg) = "QUERY_ERROR")
  ∧ (∀ msg, NewFailedResponse.code (columnsFailure msg) = "INTERNAL_ERROR") := by
  refine ⟨?_, ?_, ?_⟩
  · have hb : containsBadPayloadError e = false := by
      rcases env with ⟨o, p, x, r⟩
      rcases fs with ⟨fin, tmp⟩
      cases fin <;> cases o <;> cases p <;> cases x <;> cases r <;>
        simp only [materializeSchema, Bool.false_eq_true, if_false, if_true] at h <;>
        first
          | exact Except.noConfusion h
          | (injection h with h2
             subst h2
             simp [containsBadPayloadError])
    exact schemaFailureCode e hb
  · intro msg
    simp [NewFailedResponse.code, NewQueryError, containsSchemaError,
      containsQueryError, containsBadPayloadError]
  · intro msg
    simp [NewFailedResponse.code, columnsFailure, containsSchemaError,
      containsQueryError, containsBadPayloadError]

/-- Witness for C3 (amended): a schema whose text fails to execute. -/
theorem C3_amended_classification_witness :
    (materializeSchema ⟨none, none, some "syntax error", none⟩ "INSERT INTO d:)"
        ⟨false, false⟩).1 = .error (.schemaErr (.bare "syntax error")) ∧
    NewFailedResponse.code (querySchemaFailure (.schemaErr (.bare "syntax error")))
      = "SCHEMA_ERROR" :=
  ⟨rfl,
    (C3_amended_classification ⟨none, none, some "syntax error", none⟩ "INSERT INTO d:)"
      ⟨false, false⟩ (.schemaErr (.bare "syntax error")) rfl).1⟩

/- ## Claim C5: failed materialization leaves no trace -/

/-- Claim C5: if `initialize` (embedded as `materializeSchema`) fails
at any step — opening the fresh database, enabling foreign keys,
executing the schema text, or the final rename — then afterwards no
artifact exists at the final target path and the temporary artifact
has been discarded; and an artifact is present at the final path
exactly when it was already present or every build step succeeded, the
promotion happening only through the final atomic rename. -/
theorem C5_materialize_atomic (env : BuildEnv) (schema : String) (fs : SchemaFS)
    (htmp : fs.tmpExists = false) :
    (∀ e, (materializeSchema env schema fs).1 = .error e →
        (materializeSchema env schema fs).2.finalExists = false ∧
        (materializeSchema env schema fs).2.tmpExists = false)
  ∧ ((materializeSchema env schema fs).2.finalExists = true ↔
      (fs.finalExists = true ∨
        (env.openErr = none ∧ env.pragmaErr = none ∧ env.execErr = none ∧
          env.renameErr = none))) := by
  rcases env with ⟨o, p, x, r⟩
  rcases fs with ⟨fin, tmp⟩
  simp only at htmp
  subst htmp
  cases fin <;> cases o <;> cases p <;> cases x <;> cases r <;>
    simp [materializeSchema]

/-- Witness for C5: a build whose schema text fails to execute. -/
theorem C5_materialize_atomic_witness :
    (⟨false, false⟩ : SchemaFS).tmpExists = false ∧
    (materializeSchema ⟨none, none, some "syntax error", none⟩ "INSERT INTO d:)"
        ⟨false, false⟩).2.finalExists = false ∧
    (materializeSchema ⟨none, none, some "syntax error", none⟩ "INSERT INTO d:)"
        ⟨false, false⟩).2.tmpExists = false :=
  ⟨rfl,
    ((C5_materialize_atomic ⟨none, none, some "syntax error", none⟩ "INSERT INTO d:)"
        ⟨false, false⟩ rfl).1 (.schemaErr (.bare "syntax error")) rfl).1,
    ((C5_materialize_atomic ⟨none, none, some "syntax error", none⟩ "INSERT INTO d:)"
        ⟨false, false⟩ rfl).1 (.schemaErr (.bare "syntax error")) rfl).2⟩

/- ## Claim C9: the LEFT scalar function -/

/-- Claim C9: `LEFT(s, n)` fails on a negative `n`; for a nonnegative
`n` it returns the prefix `s[:n]` — the whole string unchanged when
`n` exceeds the length of `s`, and otherwise exactly the first `n`
characters. -/
theorem C9_left_function :
    (∀ (s : String) (n : Int), n < 0 →
        leftFunction (.str s) (.int n) = .error ("negative length: " ++ toString n))
  ∧ (∀ (s : String) (n : Int), 0 ≤ n →
        leftFunction (.str s) (.int n) = .ok (.str (String.mk (s.data.take n.toNat))))
  ∧ (∀ (s : String) (n : Int), (s.data.length : Int) < n →
        leftFunction (.str s) (.int n) = .ok (.str s))
  ∧ (∀ (s : String) (n : Int), 0 ≤ n → n ≤ (s.data.length : Int) →
        (s.data.take n.toNat).length = n.toNat) := by
  refine ⟨?_, ?_, ?_, ?_⟩
  · intro s n hn
    simp only [leftFunction]
    rw [if_pos hn]
  · intro s n hn
    simp only [leftFunction]
    rw [if_neg (by omega)]
    by_cases hlen : (s.data.length : Int) < n
    · rw [if_pos hlen]
      have ht : s.data.take n.toNat = s.data := List.take_of_length_le (by omega)
      rw [ht]
    · rw [if_neg hlen]
  · intro s n hlen
    simp only [leftFunction]
    rw [if_neg (by omega), if_pos hlen]
  · intro s n hn hle
    rw [List.length_take]
    omega

/-- Witness for C9: `LEFT("hello", -1)` fails, `LEFT("hello", 10)`
returns `"hello"` unchanged. -/
theorem C9_left_function_witness :
    leftFunction (.str "hello") (.int (-1)) = .error "negative length: -1" ∧
    leftFunction (.str "hello") (.int 10) = .ok (.str "hello") :=
  ⟨C9_left_function.1 "hello" (-1) (by decide),
   C9_left_function.2.2.1 "hello" 10 (by decide)⟩

/- ## Association-list and LRU lemmas -/

/-- Erasure never lengthens the list. -/
theorem assocErase_length_le {V : Type} (k : String) (l : List (String × V)) :
    (assocErase k l).length ≤ l.length := by
  induction l with
  | nil => simp [assocErase]
  | cons e es ih =>
      by_cases h : e.1 = k
      · simp [assocErase, h]
      · simp only [assocErase, h, if_false, List.length_cons]
        omega

/-- A successful lookup means erasure removes exactly one entry. -/
theorem assocLookup_some_length {V : Type} (k : String) {l : List (String × V)}
    {v : V} (h : assocLookup k l = some v) :
    l.length = (assocErase k l).length + 1 := by
  induction l with
  | nil => simp [assocLookup] at h
  | cons e es ih =>
      by_cases he : e.1 = k
      · simp [assocErase, he]
      · simp only [assocLookup, he, if_false] at h
        simp only [assocErase, he, if_false, List.length_cons]
        have := ih h
        omega

/-- A failed lookup means erasure is the identity. -/
theorem assocErase_of_lookup_none {V : Type} (k : String) {l : List (String × V)}
    (h : assocLookup k l = none) : assocErase k l = l := by
  induction l with
  | nil => rfl
  | cons e es ih =>
      by_cases he : e.1 = k
      · simp [assocLookup, he] at h
      · simp only [assocLookup, he, if_false] at h
        simp [assocErase, he, ih h]

/-- A looked-up binding is a member of the list. -/
theorem mem_of_assocLookup {V : Type} (k : String) {l : List (String × V)} {v : V}
    (h : assocLookup k l = some v) : (k, v) ∈ l := by
  induction l with
  | nil => simp [assocLookup] at h
  | cons e es ih =>
      rcases e with ⟨a, b⟩
      by_cases he : a = k
      · simp only [assocLookup, he, if_true, Option.some.injEq] at h
        subst he
        subst h
        exact List.mem_cons_self _ _
      · simp only [assocLookup, he, if_false] at h
        exact List.mem_cons_of_mem _ (ih h)

/-- Lemma: `Get` preserves the configured capacity. -/
theorem LRUCache.get_cap {V : Type} (c : LRUCache V) (k : String) :
    ((c.get k).2).cap = c.cap := by
  cases hl : assocLookup k c.entries <;> simp [LRUCache.get, hl]

/-- Lemma: `Get` preserves the size bound. -/
theorem LRUCache.get_length_le {V : Type} (c : LRUCache V) (k : String)
    (h : c.entries.length ≤ c.cap) : ((c.get k).2).entries.length ≤ c.cap := by
  cases hl : assocLookup k c.entries with
  | none => simpa [LRUCache.get, hl] using h
  | some v =>
      have := assocLookup_some_length k hl
      simp only [LRUCache.get, hl]
      show ((k, v) :: assocErase k c.entries).length ≤ c.cap
      simp only [List.length_cons]
      omega

/-- Lemma: `Add` preserves the configured capacity. -/
theorem LRUCache.add_cap {V : Type} (c : LRUCache V) (k : String) (v : V) :
    (c.add k v).cap = c.cap := by
  simp only [LRUCache.add]
  split <;> rfl

/-- Lemma: `Add` preserves the size bound. -/
theorem LRUCache.add_length_le {V : Type} (c : LRUCache V) (k : String) (v : V)
    (h : c.entries.length ≤ c.cap) : (c.add k v).entries.length ≤ c.cap := by
  simp only [LRUCache.add]
  have h1 : ((k, v) :: assocErase k c.entries).length ≤ c.entries.length + 1 := by
    have := assocErase_length_le k c.entries
    simp only [List.length_cons]
    omega
  split
  · rename_i hcap
    show ((k, v) :: assocErase k c.entries).dropLast.length ≤ c.cap
    rw [List.length_dropLast]
    omega
  · rename_i hcap
    show ((k, v) :: assocErase k c.entries).length ≤ c.cap
    omega

/-- One cache operation preserves the size bound and the capacity. -/
theorem LRUCache.applyOp_inv {V : Type} (c : LRUCache V) (op : CacheOp V)
    (h : c.entries.length ≤ c.cap) :
    (c.applyOp op).entries.length ≤ (c.applyOp op).cap ∧ (c.applyOp op).cap = c.cap := by
  cases op with
  | get k =>
      refine ⟨?_, LRUCache.get_cap c k⟩
      rw [LRUCache.applyOp, LRUCache.get_cap]
      exact LRUCache.get_length_le c k h
  | add k v =>
      refine ⟨?_, LRUCache.add_cap c k v⟩
      rw [LRUCache.applyOp, LRUCache.add_cap]
      exact LRUCache.add_length_le c k v h

/-- A whole history of operations preserves the size bound. -/
theorem LRUCache.applyOps_inv {V : Type} (ops : List (CacheOp V)) (c : LRUCache V)
    (h : c.entries.length ≤ c.cap) :
    (c.applyOps ops).entries.length ≤ (c.applyOps ops).cap ∧
      (c.applyOps ops).cap = c.cap := by
  induction ops generalizing c with
  | nil => exact ⟨h, rfl⟩
  | cons op ops ih =>
      have h1 := LRUCache.applyOp_inv c op h
      have h2 := ih (c.applyOp op) h1.1
      exact ⟨h2.1, h2.2.trans h1.2⟩

/-- Helper: a key just refreshed to the front (behind nothing but the
entry inserted after it) survives an `Add` of a fresh key, for any
capacity of at least two. -/
theorem lruRefreshProtects {V : Type} (cap : Nat) (k k' : String) (v v' : V)
    (L : List (String × V)) (hcap : 2 ≤ cap)
    (hnone : assocLookup k' ((k, v) :: L) = none) :
    (assocLookup k (((⟨cap, (k, v) :: L⟩ : LRUCache V).add k' v').entries)).isSome
      = true := by
  have hkk : ¬ k = k' := by
    intro he
    simp [assocLookup, he] at hnone
  have hLnone : assocLookup k' L = none := by
    simpa [assocLookup, hkk] using hnone
  simp only [LRUCache.add]
  rw [assocErase_of_lookup_none k' hnone]
  split
  · rename_i hfull
    cases L with
    | nil =>
        simp only [List.length_cons, List.length_nil] at hfull
        omega
    | cons d L2 =>
        have hk'k : ¬ k' = k := fun h => hkk h.symm
        simp [assocLookup, hk'k]
  · have hk'k : ¬ k' = k := fun h => hkk h.symm
    simp [assocLookup, hk'k]

/- ## Claim C6: the Runner's result cache is a capacity-100 LRU -/

/-- Claim C6: starting from the `lru.New(100)` cache a fresh Runner
gets, no history of gets and adds pushes the size past 100; adding a
new key to a full cache evicts exactly the least-recently-used entry;
and a hit refreshes the key's recency, protecting it from the next
eviction. -/
theorem C6_result_cache_lru :
    (∀ ops : List (CacheOp QueryResult),
        (newSQLRunnerCache.applyOps ops).entries.length ≤ 100)
  ∧ (∀ (c : LRUCache QueryResult) (k : String) (v : QueryResult),
        c.cap = 100 → c.entries.length = 100 → assocLookup k c.entries = none →
        (c.add k v).entries = (k, v) :: c.entries.dropLast)
  ∧ (∀ (c : LRUCache QueryResult) (k k' : String) (v' : QueryResult),
        2 ≤ c.cap → ((c.get k).1).isSome = true →
        assocLookup k' ((c.get k).2).entries = none →
        (assocLookup k ((((c.get k).2).add k' v').entries)).isSome = true) := by
  refine ⟨?_, ?_, ?_⟩
  · intro ops
    have h := LRUCache.applyOps_inv ops newSQLRunnerCache (by simp [newSQLRunnerCache])
    have hc : (newSQLRunnerCache.applyOps ops).cap = 100 := h.2
    omega
  · intro c k v hcap hlen hnone
    simp only [LRUCache.add]
    rw [assocErase_of_lookup_none k hnone]
    rw [if_pos (by simp only [List.length_cons]; omega)]
    cases hes : c.entries with
    | nil => rw [hes] at hlen; simp at hlen
    | cons e es => rfl
  · intro c k k' v' hcap hsome hnone
    obtain ⟨v, hv⟩ : ∃ v, assocLookup k c.entries = some v := by
      cases hl : assocLookup k c.entries with
      | none => simp [LRUCache.get, hl] at hsome
      | some v => exact ⟨v, rfl⟩
    have hc1 : (c.get k).2 = ⟨c.cap, (k, v) :: assocErase k c.entries⟩ := by
      simp [LRUCache.get, hv]
    rw [hc1] at hnone ⊢
    exact lruRefreshProtects c.cap k k' v v' (assocErase k c.entries) hcap hnone

/-- Witness for C6: in a full capacity-2 cache holding `a` (older) and
`b`, a `Get` of `a` refreshes it, so adding the fresh key `c`
afterwards still leaves `a` present. -/
theorem C6_result_cache_lru_witness :
    (assocLookup "a"
        ((((⟨2, [("b", QueryResult.mk ["b"] []), ("a", QueryResult.mk [] [])]⟩ :
              LRUCache QueryResult).get "a").2.add "c" (QueryResult.mk [] [])).entries)).isSome
      = true :=
  C6_result_cache_lru.2.2
    ⟨2, [("b", QueryResult.mk ["b"] []), ("a", QueryResult.mk [] [])]⟩
    "a" "c" (QueryResult.mk [] []) (by decide) (by decide) (by decide)

/- ## Runner query lemmas -/

/-- A miss leaves the cache untouched. -/
theorem LRUCache.get_none {V : Type} (c : LRUCache V) (k : String)
    (h : assocLookup k c.entries = none) : c.get k = (none, c) := by
  simp [LRUCache.get, h]

/-- A hit returns the stored value and moves it to the front. -/
theorem LRUCache.get_some {V : Type} (c : LRUCache V) (k : String) {v : V}
    (h : assocLookup k c.entries = some v) :
    c.get k = (some v, ⟨c.cap, (k, v) :: assocErase k c.entries⟩) := by
  simp [LRUCache.get, h]

/-- Erasure only removes entries. -/
theorem mem_of_mem_assocErase {V : Type} (k : String) {l : List (String × V)}
    {x : String × V} (h : x ∈ assocErase k l) : x ∈ l := by
  induction l with
  | nil => simp [assocErase] at h
  | cons e es ih =>
      by_cases he : e.1 = k
      · rw [assocErase, if_pos he] at h
        exact List.mem_cons_of_mem _ h
      · rw [assocErase, if_neg he] at h
        rcases List.mem_cons.mp h with h1 | h2
        · exact h1 ▸ List.mem_cons_self _ _
        · exact List.mem_cons_of_mem _ (ih h2)

/-- Lemma: `dropLast` only removes entries. -/
theorem mem_of_mem_dropLast {α : Type} {x : α} {l : List α}
    (h : x ∈ l.dropLast) : x ∈ l :=
  List.dropLast_subset l h

/-- Lemma: `SQLRunner.Query` preserves the result-cache soundness invariant. -/
theorem Query_preserves_consistent (engine : String → Except GoError QueryResult)
    (c : LRUCache QueryResult) (q : String) (hc : EntriesConsistent engine c) :
    EntriesConsistent engine (SQLRunner.Query engine c q).2 := by
  cases hl : assocLookup q c.entries with
  | some v =>
      have hget := LRUCache.get_some c q hl
      simp only [SQLRunner.Query, hget]
      intro p hp
      rcases List.mem_cons.mp hp with h1 | h2
      · subst h1
        exact hc _ (mem_of_assocLookup q hl)
      · exact hc _ (mem_of_mem_assocErase q h2)
  | none =>
      have hget := LRUCache.get_none c q hl
      simp only [SQLRunner.Query, hget]
      cases he : engine q with
      | error e => exact hc
      | ok r =>
          intro p hp
          simp only [LRUCache.add] at hp
          split at hp
          · rcases List.mem_cons.mp (mem_of_mem_dropLast hp) with h1 | h2
            · subst h1
              exact he
            · exact hc _ (mem_of_mem_assocErase q h2)
          · rcases List.mem_cons.mp hp with h1 | h2
            · subst h1
              exact he
            · exact hc _ (mem_of_mem_assocErase q h2)

/-- Under the soundness invariant, every successful `Query` returns
exactly the engine's result for that query text. -/
theorem Query_ok_eq_engine (engine : String → Except GoError QueryResult)
    (c : LRUCache QueryResult) (q : String) (r : QueryResult)
    (hc : EntriesConsistent engine c)
    (h : (SQLRunner.Query engine c q).1 = .ok r) : engine q = .ok r := by
  cases hl : assocLookup q c.entries with
  | some v =>
      have hget := LRUCache.get_some c q hl
      simp only [SQLRunner.Query, hget] at h
      obtain rfl : v = r := by
        injection h with h2
      exact hc _ (mem_of_assocLookup q hl)
  | none =>
      have hget := LRUCache.get_none c q hl
      simp only [SQLRunner.Query, hget] at h
      cases he : engine q with
      | error e => rw [he] at h; exact Except.noConfusion h
      | ok r2 =>
          rw [he] at h
          injection h with h2
          rw [h2]

/- ## Claim C7: the empty query -/

/-- Claim C7: with the embedded engine's no-op behaviour on the empty
query text (zero columns, zero rows — the spec's §4.5 step 6, external
to this repository), `SQLRunner.Query` on an empty query succeeds with
the empty `QueryResult` for any sound cache state, rather than
returning an error. -/
theorem C7_empty_query (engine : String → Except GoError QueryResult)
    (c : LRUCache QueryResult) (hc : EntriesConsistent engine c)
    (he : engine "" = .ok ⟨[], []⟩) :
    (SQLRunner.Query engine c "").1 = .ok ⟨[], []⟩ := by
  cases hl : assocLookup "" c.entries with
  | some v =>
      have hv : engine "" = .ok v := hc _ (mem_of_assocLookup "" hl)
      have : v = (⟨[], []⟩ : QueryResult) := by
        rw [he] at hv
        injection hv with h2
        exact h2.symm
      subst this
      simp only [SQLRunner.Query, LRUCache.get_some c "" hl]
  | none =>
      simp only [SQLRunner.Query, LRUCache.get_none c "" hl, he]

/-- Witness for C7: a fresh Runner cache and a concrete engine. -/
theorem C7_empty_query_witness :
    (SQLRunner.Query (fun q => if q = "" then .ok ⟨[], []⟩ else .ok ⟨["x"], [["1"]]⟩)
        newSQLRunnerCache "").1 = .ok ⟨[], []⟩ :=
  C7_empty_query (fun q => if q = "" then .ok ⟨[], []⟩ else .ok ⟨["x"], [["1"]]⟩)
    newSQLRunnerCache (fun _ hp => nomatch hp) rfl

/- ## Claim C8: determinism of query results -/

/-- Claim C8: the engine is a fixed function of the query text (the
materialized database is immutable and the registered scalar functions
are deterministic), so any two successful `Query` calls for the same
query text — from any two sound cache states, in particular before and
after an eviction — return the identical `QueryResult`.  A fresh
Runner's cache is sound, and `Query` preserves soundness, so every
reachable cache state is sound. -/
theorem C8_deterministic (engine : String → Except GoError QueryResult) :
    EntriesConsistent engine newSQLRunnerCache
  ∧ (∀ (c : LRUCache QueryResult) (q : String),
        EntriesConsistent engine c →
        EntriesConsistent engine (SQLRunner.Query engine c q).2)
  ∧ (∀ (c1 c2 : LRUCache QueryResult) (q : String) (r1 r2 : QueryResult),
        EntriesConsistent engine c1 → EntriesConsistent engine c2 →
        (SQLRunner.Query engine c1 q).1 = .ok r1 →
        (SQLRunner.Query engine c2 q).1 = .ok r2 → r1 = r2) := by
  refine ⟨?_, ?_, ?_⟩
  · intro p hp
    simp [newSQLRunnerCache] at hp
  · intro c q hc
    exact Query_preserves_consistent engine c q hc
  · intro c1 c2 q r1 r2 hc1 hc2 h1 h2
    have e1 := Query_ok_eq_engine engine c1 q r1 hc1 h1
    have e2 := Query_ok_eq_engine engine c2 q r2 hc2 h2
    rw [e1] at e2
    injection e2

/-- Witness for C8: two calls from different cache states agree. -/
theorem C8_deterministic_witness :
    (SQLRunner.Query (fun _ => .ok ⟨["x"], [["1"]]⟩) newSQLRunnerCache "SELECT x").1
      = .ok ⟨["x"], [["1"]]⟩ ∧
    (⟨["x"], [["1"]]⟩ : QueryResult) = ⟨["x"], [["1"]]⟩ := by
  refine ⟨rfl, ?_⟩
  refine (C8_deterministic (fun _ => .ok ⟨["x"], [["1"]]⟩)).2.2
      newSQLRunnerCache ⟨100, [("other", ⟨["x"], [["1"]]⟩)]⟩ "SELECT x"
      ⟨["x"], [["1"]]⟩ ⟨["x"], [["1"]]⟩
      (fun p hp => nomatch hp) ?_ rfl rfl
  intro p hp
  rcases List.mem_cons.mp hp with h1 | h2
  · rw [h1]
  · exact absurd h2 (by simp)

/- ## Claim C10: a failed query never touches the result cache -/

/-- Claim C10: when `SQLRunner.Query` returns an error, the result
cache is returned unchanged and holds no entry for that query text
(an entry would have been a hit, which always succeeds), and the
failure is exactly the engine's failure — so the next call with the
same text misses again and re-executes against the engine. -/
theorem C10_error_leaves_cache (engine : String → Except GoError QueryResult)
    (c : LRUCache QueryResult) (q : String) (e : GoError)
    (h : (SQLRunner.Query engine c q).1 = .error e) :
    (SQLRunner.Query engine c q).2 = c ∧
    assocLookup q c.entries = none ∧
    engine q = .error e := by
  cases hl : assocLookup q c.entries with
  | some v =>
      simp only [SQLRunner.Query, LRUCache.get_some c q hl] at h
      exact Except.noConfusion h
  | none =>
      cases he : engine q with
      | error e2 =>
          have hq : SQLRunner.Query engine c q = (.error e2, c) := by
            simp only [SQLRunner.Query, LRUCache.get_none c q hl, he]
          have h2 : (Except.error e2 : Except GoError QueryResult) = .error e := by
            rw [hq] at h
            exact h
          injection h2 with h3
          subst h3
          rw [hq]
          exact ⟨rfl, rfl, rfl⟩
      | ok r =>
          have hq : (SQLRunner.Query engine c q).1 = .ok r := by
            simp only [SQLRunner.Query, LRUCache.get_none c q hl, he]
          rw [hq] at h
          exact Except.noConfusion h

/-- Witness for C10: a failing engine leaves a fresh cache unchanged. -/
theorem C10_error_leaves_cache_witness :
    (SQLRunner.Query (fun _ => .error (NewQueryError "no such table: t"))
        newSQLRunnerCache "SELECT x FROM t").2 = newSQLRunnerCache ∧
    assocLookup "SELECT x FROM t" newSQLRunnerCache.entries = none ∧
    ((fun _ => .error (NewQueryError "no such table: t")) :
        String → Except GoError QueryResult) "SELECT x FROM t"
      = .error (NewQueryError "no such table: t") :=
  C10_error_leaves_cache (fun _ => .error (NewQueryError "no such table: t"))
    newSQLRunnerCache "SELECT x FROM t" (NewQueryError "no such table: t") rfl

/- ## Claim C2: the runner cache -/

/-- Claim C2 counterexample: no revision has a capacity-20 LRU runner
cache.  In the `sync.Map` revision, resolving 21 distinct schemas
leaves 21 live Runners in the cache (nothing is ever evicted); and in
the current revision, which retains no Runners, a second sequential
resolve of the same schema constructs a brand-new Runner (number 1)
instead of returning the existing one (number 0). -/
theorem C2_counterexample :
    (resolveAll emptyRunnerMap twentyOneSchemas).runners.length = 21 ∧
    ¬ ((21 : Nat) ≤ 20) ∧
    (findRunnerTwiceSequential ⟨none, none, none, none⟩ "CREATE TABLE dev(ID int)"
        ⟨⟨false, false⟩, 0, 0, 0, 0⟩).1 = ([.ok 0], [.ok 1]) ∧
    (findRunnerTwiceSequential ⟨none, none, none, none⟩ "CREATE TABLE dev(ID int)"
        ⟨⟨false, false⟩, 0, 0, 0, 0⟩).2.runnerCount = 2 :=
  ⟨by decide, by decide, rfl, rfl⟩

/-- Claim C2 (amended): the `sync.Map` revision's runner cache is an
unbounded map keyed by the raw schema text: a hit returns the existing
Runner without constructing anything and without touching the
materializer; resolution never evicts (the runner list never shrinks);
and resolving any list of pairwise-distinct, not-yet-cached schemas
grows the cache by exactly one live Runner per schema, without bound.
The current (`src/main.go`) revision instead retains no Runners at all
and only collapses concurrent resolves. -/
theorem C2_amended_runner_map :
    (∀ (valid : String → Bool) (s : RunnerMap) (schema : String) (runner : Nat),
        assocLookup schema s.runners = some runner →
        SqlQueryService.findRunner valid s schema = (some runner, s))
  ∧ (∀ (valid : String → Bool) (s : RunnerMap) (schema : String),
        s.runners.length ≤ ((SqlQueryService.findRunner valid s schema).2).runners.length)
  ∧ (∀ (schemas : List String) (s : RunnerMap),
        (∀ x ∈ schemas, assocLookup x s.runners = none) → schemas.Nodup →
        (resolveAll s schemas).runners.length
          = s.runners.length + schemas.length) := by
  refine ⟨?_, ?_, ?_⟩
  · intro valid s schema runner h
    simp [SqlQueryService.findRunner, h]
  · intro valid s schema
    cases hl : assocLookup schema s.runners with
    | some runner => simp [SqlQueryService.findRunner, hl]
    | none =>
        simp only [SqlQueryService.findRunner, hl]
        split
        · simp only [List.length_cons]
          omega
        · simp
  · intro schemas
    induction schemas with
    | nil =>
        intro s _ _
        simp [resolveAll]
    | cons a l ih =>
        intro s hnone hnodup
        have ha : assocLookup a s.runners = none := hnone a (List.mem_cons_self a l)
        have hstep :
            (SqlQueryService.findRunner (fun _ => true) s a).2
              = ⟨(a, s.nextRunnerId) :: s.runners, s.nextRunnerId + 1,
                  s.newRunnerCalls + 1⟩ := by
          simp [SqlQueryService.findRunner, ha]
        have hrest : ∀ x ∈ l,
            assocLookup x ((a, s.nextRunnerId) :: s.runners) = none := by
          intro x hx
          have hax : ¬ a = x := by
            intro he
            exact (List.nodup_cons.mp hnodup).1 (he ▸ hx)
          simp only [assocLookup, hax, if_false]
          exact hnone x (List.mem_cons_of_mem a hx)
        have := ih ⟨(a, s.nextRunnerId) :: s.runners, s.nextRunnerId + 1,
            s.newRunnerCalls + 1⟩ hrest (List.nodup_cons.mp hnodup).2
        simp only [resolveAll, List.foldl_cons] at this ⊢
        rw [hstep]
        simp only [List.length_cons] at this ⊢
        rw [this]
        omega

/-- Witness for C2 (amended): a cache hit on a stored schema. -/
theorem C2_amended_runner_map_witness :
    SqlQueryService.findRunner (fun _ => true)
        ⟨[("CREATE TABLE dev(ID int)", 5)], 6, 1⟩ "CREATE TABLE dev(ID int)"
      = (some 5, ⟨[("CREATE TABLE dev(ID int)", 5)], 6, 1⟩) :=
  C2_amended_runner_map.1 (fun _ => true)
    ⟨[("CREATE TABLE dev(ID int)", 5)], 6, 1⟩ "CREATE TABLE dev(ID int)" 5 (by decide)

/- ## Claim C4: concurrent dedup of resolution and build -/

/-- Claim C4: for `n` concurrent resolve calls of one never-before-seen
schema text, the service singleflight collapses them into one
`NewSQLRunner` whose inner singleflight executes `initialize` exactly
once — so the flight performs exactly one materializer run, exactly one
actual build, and (when every build step succeeds) exactly one Runner
construction, with every one of the `n` callers observing that same
Runner; on failure, all callers observe the same classified error. -/
theorem C4_concurrent_dedup (env : BuildEnv) (schema : String) (st : MatState)
    (n : Nat) (hfresh : st.fs.finalExists = false) :
    (∃ out, (SqlQueryService.findRunnerFlight env schema n st).1 = List.replicate n out)
  ∧ (SqlQueryService.findRunnerFlight env schema n st).2.materializeRuns
      = st.materializeRuns + 1
  ∧ (SqlQueryService.findRunnerFlight env schema n st).2.buildCount = st.buildCount + 1
  ∧ (env = ⟨none, none, none, none⟩ →
      (SqlQueryService.findRunnerFlight env schema n st).2.runnerCount
          = st.runnerCount + 1 ∧
      (SqlQueryService.findRunnerFlight env schema n st).1
          = List.replicate n (.ok st.nextRunnerId)) := by
  refine ⟨?_, ?_, ?_, ?_⟩
  · cases hr : (materializeSchema env schema st.fs).1 <;>
      simp [SqlQueryService.findRunnerFlight, singleflightDo, NewSQLRunner,
        materializeCounting, hr]
  · cases hr : (materializeSchema env schema st.fs).1 <;>
      simp [SqlQueryService.findRunnerFlight, singleflightDo, NewSQLRunner,
        materializeCounting, hr]
  · cases hr : (materializeSchema env schema st.fs).1 <;>
      simp [SqlQueryService.findRunnerFlight, singleflightDo, NewSQLRunner,
        materializeCounting, hr, hfresh]
  · intro henv
    subst henv
    have hr : (materializeSchema ⟨none, none, none, none⟩ schema st.fs).1
        = .ok (schemaFilename schema) := by
      simp [materializeSchema, hfresh]
    constructor <;>
      simp [SqlQueryService.findRunnerFlight, singleflightDo, NewSQLRunner,
        materializeCounting, hr, hfresh]

/-- Witness for C4: three concurrent callers, a fresh schema, a clean
build: one materializer run, one build, one Runner, fanned out to all
three callers. -/
theorem C4_concurrent_dedup_witness :
    (SqlQueryService.findRunnerFlight ⟨none, none, none, none⟩
        "CREATE TABLE dev(ID int)" 3 ⟨⟨false, false⟩, 0, 0, 0, 0⟩).1
      = List.replicate 3 (.ok 0) ∧
    (SqlQueryService.findRunnerFlight ⟨none, none, none, none⟩
        "CREATE TABLE dev(ID int)" 3 ⟨⟨false, false⟩, 0, 0, 0, 0⟩).2.buildCount = 1 ∧
    (SqlQueryService.findRunnerFlight ⟨none, none, none, none⟩
        "CREATE TABLE dev(ID int)" 3 ⟨⟨false, false⟩, 0, 0, 0, 0⟩).2.runnerCount = 1 :=
  ⟨((C4_concurrent_dedup ⟨none, none, none, none⟩ "CREATE TABLE dev(ID int)"
      ⟨⟨false, false⟩, 0, 0, 0, 0⟩ 3 rfl).2.2.2 rfl).2,
   (C4_concurrent_dedup ⟨none, none, none, none⟩ "CREATE TABLE dev(ID int)"
      ⟨⟨false, false⟩, 0, 0, 0, 0⟩ 3 rfl).2.2.1,
   ((C4_concurrent_dedup ⟨none, none, none, none⟩ "CREATE TABLE dev(ID int)"
      ⟨⟨false, false⟩, 0, 0, 0, 0⟩ 3 rfl).2.2.2 rfl).1⟩
